import Mathlib

/-!
Verification development for the Sharpe-ratio optimizer
(`src/sharpe_optimizer.py`).

The file embeds, component by component, the parts of the program that the
spec talks about:

* the Return Series Builder (`download_prices`'s trailing
  `dropna(how="all")` and `compute_daily_returns`, i.e. pandas
  `pct_change()` with its long-standing default forward-fill followed by
  `dropna(how="all")`), modelled on frames of optional rational prices
  (a `none` cell is a NaN);
* the Moment Estimator (`annualize_returns`, `annualize_covariance` and
  the column mean / sample covariance the `main` pipeline takes from
  pandas), over the reals;
* the Portfolio Evaluator (`portfolio_stats`), with NaN-producing numpy
  operations made explicit through the `NFloat` type;
* the Allocator (`negative_sharpe`, `optimize_sharpe`), with
  `scipy.optimize.minimize` abstracted as a solver parameter receiving
  exactly the problem the source builds (objective, initial point,
  equality constraint, bounds).

Theorems at the end settle the spec's claims against these definitions.
-/

set_option autoImplicit false

namespace SharpeOptimizer

/-! ### Price frames and the Return Series Builder

A price frame is a list of rows (one row per timestamp), each row a list
of optional prices (one cell per asset, `none` standing for a missing
observation / NaN).  Prices are modelled as exact rationals. -/

abbrev Cell : Type := Option ℚ

abbrev Row : Type := List Cell

abbrev PriceFrame : Type := List Row

/-- Embedding of pandas `DataFrame.dropna(how="all")` as used at the end
of `download_prices` and of `compute_daily_returns`: a row is kept
exactly when at least one of its cells is present. -/
def dropna_all (f : PriceFrame) : PriceFrame :=
  f.filter (fun row => row.any (fun c => c.isSome))

/-- One cell of the forward-fill (pad) step of pandas `pct_change()`:
the padded value is the current cell when present, otherwise the carried
last observation. -/
def padCell (carry cell : Cell) : Cell :=
  match cell with
  | none => carry
  | some v => some v

/-- One cell of the percentage-change step: given the previous padded
value and the current padded value, the return is `cur / prev - 1` when
both are present and NaN otherwise. -/
def retCell (prev cur : Cell) : Cell :=
  match prev, cur with
  | some a, some b => some (b / a - 1)
  | _, _ => none

/-- Row-by-row computation of pandas `pct_change()` (default
forward-fill): `carry` is the vector of last padded observations per
column; each step emits the row of returns against the carry and
recurses with the padded row as the new carry. -/
def pctRows : Row → PriceFrame → PriceFrame
  | _, [] => []
  | carry, row :: rest =>
      List.zipWith retCell carry (List.zipWith padCell carry row) ::
        pctRows (List.zipWith padCell carry row) rest

/-- Embedding of `prices.pct_change()` on a frame with `n` columns:
the initial carry is all-missing, so the first emitted row is all NaN. -/
def pct_change (n : ℕ) (f : PriceFrame) : PriceFrame :=
  pctRows (List.replicate n none) f

/-- Embedding of `compute_daily_returns` (source lines 79–86):
`prices.pct_change().dropna(how="all")`. -/
def compute_daily_returns (n : ℕ) (prices : PriceFrame) : PriceFrame :=
  dropna_all (pct_change n prices)

/-- The per-period return formula stated by the spec,
`r_t = P_t / P_{t-1} - 1`, applied cellwise to two fully aligned rows. -/
def ratioRow (prev cur : Row) : Row :=
  List.zipWith (fun p q => Option.map₂ (fun a b => b / a - 1) p q) prev cur

/-- The T−1 rows of consecutive-price returns of a frame, one row per
adjacent pair of timestamps. -/
def ratioFrame : PriceFrame → PriceFrame
  | r1 :: r2 :: rest => ratioRow r1 r2 :: ratioFrame (r2 :: rest)
  | _ => []

/-- Spec-side comparator, following the spec's words for the Return
Series Builder: "if prices are missing at a timestamp for some assets,
drop that timestamp from all series (a row is usable only if every asset
has an observation)".  Keeps exactly the fully observed rows. -/
def spec_keep_complete (f : PriceFrame) : PriceFrame :=
  f.filter (fun row => row.all (fun c => c.isSome))

/-- Spec-side comparator for the whole Return Series Builder: drop every
row with any missing asset, then take consecutive-price returns. -/
def spec_return_builder (f : PriceFrame) : PriceFrame :=
  ratioFrame (spec_keep_complete f)

/-! ### Moment Estimator

The `main` pipeline (source lines 273–277) computes `returns.mean()`
column by column, annualizes it with `annualize_returns`, computes
`returns.cov()` (the unbiased, N−1 denominator sample covariance, per
pandas' documented semantics) and annualizes it with
`annualize_covariance`.  Returns matrices are `Fin T → Fin N → ℝ`
(rows = periods, columns = assets). -/

/-- Column arithmetic mean, the embedding of pandas `Series.mean()` on a
fully observed column of length `T`. -/
noncomputable def colMean (T : ℕ) (r : Fin T → ℝ) : ℝ :=
  (∑ t, r t) / (T : ℝ)

/-- Embedding of `annualize_returns` (source lines 93–100):
`(1.0 + mean_daily) ** trading_days - 1.0`, `trading_days` defaulting
to 252. -/
noncomputable def annualize_returns (mean_daily : ℝ) (trading_days : ℕ := 252) : ℝ :=
  (1 + mean_daily) ^ trading_days - 1

/-- Embedding of `annualize_covariance` (source lines 103–110):
elementwise multiplication of the daily covariance matrix by
`trading_days` (default 252). -/
noncomputable def annualize_covariance (N : ℕ) (daily_cov : Fin N → Fin N → ℝ)
    (trading_days : ℕ := 252) : Fin N → Fin N → ℝ :=
  fun i j => daily_cov i j * (trading_days : ℝ)

/-- Embedding of pandas `DataFrame.cov()` on a fully observed `T × N`
returns matrix: the unbiased sample covariance with the `T − 1`
denominator. -/
noncomputable def sampleCov (N T : ℕ) (R : Fin T → Fin N → ℝ) : Fin N → Fin N → ℝ :=
  fun i j =>
    (∑ t, (R t i - colMean T (fun s => R s i)) * (R t j - colMean T (fun s => R s j))) /
      ((T : ℝ) - 1)

/-- The expected-return vector the `main` pipeline computes (source
lines 273–274): `returns.mean().apply(annualize_returns)`, with the
default 252 trading days. -/
noncomputable def exp_returns_of (N T : ℕ) (R : Fin T → Fin N → ℝ) : Fin N → ℝ :=
  fun i => annualize_returns (colMean T (fun t => R t i))

/-- The annualized covariance matrix the `main` pipeline computes
(source lines 276–277): `annualize_covariance(returns.cov())`, with the
default 252 trading days. -/
noncomputable def cov_annual_of (N T : ℕ) (R : Fin T → Fin N → ℝ) : Fin N → Fin N → ℝ :=
  annualize_covariance N (sampleCov N T R)

/-! ### Portfolio Evaluator

`portfolio_stats` works on numpy floats: `np.sqrt` of a negative number
is NaN (numpy emits a runtime warning and continues), the comparison
`NaN == 0` is false, and dividing a real by NaN gives NaN.  `NFloat`
makes the NaN case of this arithmetic explicit; a real number that is
never NaN stays a plain `ℝ`. -/

section
open Classical

/-- A numpy scalar that may be NaN. -/
inductive NFloat : Type where
  | nan : NFloat
  | val : ℝ → NFloat

/-- Embedding of `np.sqrt` on a real argument: NaN for a negative
argument, the real square root otherwise. -/
noncomputable def npSqrt (v : ℝ) : NFloat :=
  if v < 0 then NFloat.nan else NFloat.val (Real.sqrt v)

/-- Negation of a possibly-NaN scalar (`-NaN` is NaN). -/
def npNeg : NFloat → NFloat
  | NFloat.nan => NFloat.nan
  | NFloat.val x => NFloat.val (-x)

/-- Division of a real by a possibly-NaN scalar (`x / NaN` is NaN). -/
noncomputable def npDiv (a : ℝ) : NFloat → NFloat
  | NFloat.nan => NFloat.nan
  | NFloat.val x => NFloat.val (a / x)

/-- Portfolio expected return `w^T μ` (source line 141). -/
noncomputable def portRet (n : ℕ) (weights exp_returns : Fin n → ℝ) : ℝ :=
  ∑ i, weights i * exp_returns i

/-- Portfolio variance `w^T Σ w` (source line 144). -/
noncomputable def portVar (n : ℕ) (weights : Fin n → ℝ) (cov_matrix : Fin n → Fin n → ℝ) : ℝ :=
  ∑ i, weights i * (∑ j, cov_matrix i j * weights j)

/-- Embedding of `portfolio_stats` (source lines 113–152): the triple
`(port_ret, port_vol, sharpe)` with `port_vol = np.sqrt(port_var)` and
`sharpe = 0` when `port_vol == 0` (false for NaN), otherwise
`(port_ret - risk_free_rate) / port_vol`.  The function is total: the
source contains no raise on this path. -/
noncomputable def portfolio_stats (n : ℕ) (weights exp_returns : Fin n → ℝ)
    (cov_matrix : Fin n → Fin n → ℝ) (risk_free_rate : ℝ) : ℝ × NFloat × NFloat :=
  (portRet n weights exp_returns,
   npSqrt (portVar n weights cov_matrix),
   if npSqrt (portVar n weights cov_matrix) = NFloat.val 0 then NFloat.val 0
   else npDiv (portRet n weights exp_returns - risk_free_rate) (npSqrt (portVar n weights cov_matrix)))

/-- The spec's error kinds relevant to the Portfolio Evaluator. -/
inductive SpecError : Type where
  | numericalInstability : SpecError
  deriving Repr, DecidableEq

/-- Spec-side comparator for the Portfolio Evaluator, following the
spec's words: a negative variance "should be reported as a
`NumericalInstabilityError` rather than silently taking sqrt of a
negative number"; otherwise `vol = sqrt(var)` and
`sharpe = (ret - r_f) / vol` if `vol > 0`, else 0. -/
noncomputable def spec_portfolio_stats (n : ℕ) (weights exp_returns : Fin n → ℝ)
    (cov_matrix : Fin n → Fin n → ℝ) (risk_free_rate : ℝ) :
    Except SpecError (ℝ × ℝ × ℝ) :=
  if portVar n weights cov_matrix < 0 then Except.error SpecError.numericalInstability
  else
    Except.ok (portRet n weights exp_returns,
      Real.sqrt (portVar n weights cov_matrix),
      if 0 < Real.sqrt (portVar n weights cov_matrix) then
        (portRet n weights exp_returns - risk_free_rate) / Real.sqrt (portVar n weights cov_matrix)
      else 0)

/-! ### Allocator

`scipy.optimize.minimize` is external to the repository; it is modelled
as a function from the problem the source constructs (objective,
initial point, equality constraint, bounds — source lines 188–209) to a
result record carrying the solver's `success` flag, point `x` and
diagnostic `message`. -/

/-- The data `optimize_sharpe` hands to `scipy.optimize.minimize`. -/
structure SolverProblem (n : ℕ) : Type where
  objective : (Fin n → ℝ) → NFloat
  x0 : Fin n → ℝ
  eqConstraintFun : (Fin n → ℝ) → ℝ
  bounds : Fin n → ℝ × ℝ

/-- The fields of the scipy `OptimizeResult` the source reads. -/
structure SolverResult (n : ℕ) : Type where
  success : Bool
  x : Fin n → ℝ
  message : String

/-- Embedding of `negative_sharpe` (source lines 159–174): the negated
Sharpe component of `portfolio_stats`. -/
noncomputable def negative_sharpe (n : ℕ) (weights exp_returns : Fin n → ℝ)
    (cov_matrix : Fin n → Fin n → ℝ) (risk_free_rate : ℝ) : NFloat :=
  npNeg (portfolio_stats n weights exp_returns cov_matrix risk_free_rate).2.2

/-- The minimization problem `optimize_sharpe` constructs (source lines
188–209): objective `negative_sharpe`, initial point
`np.ones(n) / n`, equality constraint `sum(w) - 1`, bounds `(0, 1)`
for every coordinate. -/
noncomputable def sharpeProblem (n : ℕ) (exp_returns : Fin n → ℝ)
    (cov_matrix : Fin n → Fin n → ℝ) (risk_free_rate : ℝ) : SolverProblem n where
  objective := fun w => negative_sharpe n w exp_returns cov_matrix risk_free_rate
  x0 := fun _ => 1 / (n : ℝ)
  eqConstraintFun := fun w => (∑ i, w i) - 1
  bounds := fun _ => (0, 1)

/-- Embedding of `optimize_sharpe` (source lines 177–214),
parameterized by the external solver: on solver success the solver's
point is returned unchanged; otherwise the run fails with
`"Optimization failed: "` followed by the solver's diagnostic message
(the source's `raise RuntimeError(f"Optimization failed: {result.message}")`). -/
noncomputable def optimize_sharpe (n : ℕ) (minimize : SolverProblem n → SolverResult n)
    (exp_returns : Fin n → ℝ) (cov_matrix : Fin n → Fin n → ℝ)
    (risk_free_rate : ℝ) : Except String (Fin n → ℝ) :=
  if (minimize (sharpeProblem n exp_returns cov_matrix risk_free_rate)).success then
    Except.ok (minimize (sharpeProblem n exp_returns cov_matrix risk_free_rate)).x
  else
    Except.error ("Optimization failed: " ++
      (minimize (sharpeProblem n exp_returns cov_matrix risk_free_rate)).message)

end

/-! ### Helper lemmas about the Return Series Builder -/

/-- The pct-change pass emits exactly one return row per price row. -/
theorem pctRows_length : ∀ (P : PriceFrame) (carry : Row),
    (pctRows carry P).length = P.length
  | [], _ => rfl
  | _ :: rest, carry => by
      simp [pctRows, pctRows_length rest]

/-- Padding a cell keeps an observation: the padded cell is present
exactly when the carry or the cell is. -/
theorem padCell_isSome (c r : Cell) : (padCell c r).isSome = (c.isSome || r.isSome) := by
  cases r <;> cases c <;> rfl

/-- A fully observed row is unchanged by padding. -/
theorem zipWith_padCell_allsome : ∀ (carry row : Row),
    row.length ≤ carry.length → (∀ c ∈ row, c.isSome = true) →
    List.zipWith padCell carry row = row
  | _, [], _, _ => by simp
  | [], _ :: _, h, _ => by simp at h
  | c :: carry, r :: row, h, hs => by
      have hr : r.isSome = true := hs r (by simp)
      have hrest := zipWith_padCell_allsome carry row (by simpa using h)
        (fun c hc => hs c (by simp [hc]))
      cases r with
      | none => simp at hr
      | some v => simp [padCell, hrest]

/-- Padding against an all-missing carry is the identity. -/
theorem zipWith_padCell_replicate_none : ∀ (row : Row) (n : ℕ),
    row.length ≤ n → List.zipWith padCell (List.replicate n none) row = row
  | [], _, _ => by simp
  | _ :: _, 0, h => by simp at h
  | r :: row, n + 1, h => by
      have hrest := zipWith_padCell_replicate_none row n (by simpa using h)
      cases r <;> simp [padCell, List.replicate, hrest]

/-- A return cell with a missing previous observation is missing. -/
theorem retCell_none_left (c : Cell) : retCell none c = none := by
  cases c <;> rfl

/-- Return rows computed against an all-missing carry are all missing. -/
theorem zipWith_retCell_none : ∀ (carry l : Row),
    (∀ c ∈ carry, c = none) →
    ∀ x ∈ List.zipWith retCell carry l, x = none
  | [], _, _ => by simp
  | _ :: _, [], _ => by simp
  | c :: carry, x :: l, h => by
      have hc : c = none := h c (by simp)
      have hrest := zipWith_retCell_none carry l (fun d hd => h d (by simp [hd]))
      subst hc
      intro y hy
      rw [List.zipWith_cons_cons, retCell_none_left, List.mem_cons] at hy
      rcases hy with hy | hy
      · exact hy
      · exact hrest y hy

/-- If the carry holds at least one observation, so does the return row
computed from it (padding re-supplies the matching current value). -/
theorem zipWith_retCell_any : ∀ (carry row : Row),
    row.length = carry.length → carry.any (fun c => c.isSome) = true →
    (List.zipWith retCell carry (List.zipWith padCell carry row)).any (fun c => c.isSome) = true
  | [], _, _, hc => by simp at hc
  | _ :: _, [], h, _ => by simp at h
  | c :: carry, r :: row, h, hc => by
      cases c with
      | some a =>
          cases r with
          | none => simp [padCell, retCell]
          | some v => simp [padCell, retCell]
      | none =>
          have hc' : carry.any (fun c => c.isSome) = true := by simpa using hc
          have := zipWith_retCell_any carry row (by simpa using h) hc'
          simp [padCell, retCell_none_left, this]

/-- If the carry or the row holds an observation, so does the padded
row. -/
theorem zipWith_padCell_any : ∀ (carry row : Row),
    row.length = carry.length →
    (carry.any (fun c => c.isSome) = true ∨ row.any (fun c => c.isSome) = true) →
    (List.zipWith padCell carry row).any (fun c => c.isSome) = true
  | [], [], _, hc => by simp at hc
  | [], _ :: _, h, _ => by simp at h
  | _ :: _, [], h, _ => by simp at h
  | c :: carry, r :: row, h, hc => by
      have h' : row.length = carry.length := by simpa using h
      rw [List.zipWith_cons_cons, List.any_cons]
      rcases hc with hc | hc
      · rw [List.any_cons] at hc
        rcases Bool.or_eq_true_iff.mp hc with hc' | hc'
        · simp [padCell_isSome, hc']
        · have := zipWith_padCell_any carry row h' (Or.inl hc')
          simp [this]
      · rw [List.any_cons] at hc
        rcases Bool.or_eq_true_iff.mp hc with hc' | hc'
        · simp [padCell_isSome, hc']
        · have := zipWith_padCell_any carry row h' (Or.inr hc')
          simp [this]

/-- When every price row has at least one observation and the carry
does too, `dropna(how="all")` keeps every emitted return row. -/
theorem dropna_all_pctRows : ∀ (P : PriceFrame) (carry : Row) (n : ℕ),
    carry.length = n → carry.any (fun c => c.isSome) = true →
    (∀ row ∈ P, row.length = n ∧ row.any (fun c => c.isSome) = true) →
    dropna_all (pctRows carry P) = pctRows carry P
  | [], _, _, _, _, _ => rfl
  | row :: rest, carry, n, hc, hcs, hrows => by
      have hrow := hrows row (by simp)
      have hhead : (List.zipWith retCell carry (List.zipWith padCell carry row)).any
          (fun c => c.isSome) = true :=
        zipWith_retCell_any carry row (by rw [hrow.1, hc]) hcs
      have hplen : (List.zipWith padCell carry row).length = n := by
        simp [List.length_zipWith, hc, hrow.1]
      have hpany : (List.zipWith padCell carry row).any (fun c => c.isSome) = true :=
        zipWith_padCell_any carry row (by rw [hrow.1, hc]) (Or.inl hcs)
      have hrest := dropna_all_pctRows rest (List.zipWith padCell carry row) n hplen hpany
        (fun r hr => hrows r (by simp [hr]))
      simp only [pctRows, dropna_all] at hrest ⊢
      rw [List.filter_cons_of_pos (by simpa using hhead), hrest]

/-! ### Helper lemmas about consecutive-price returns -/

/-- The cellwise return function of the code is the spec's
`r_t = P_t / P_{t-1} - 1` formula on optional cells. -/
theorem retCell_eq_map₂ (p q : Cell) :
    retCell p q = Option.map₂ (fun a b => b / a - 1) p q := by
  cases p <;> cases q <;> rfl

/-- The spec's consecutive-return row is cellwise `retCell`. -/
theorem ratioRow_eq_zipWith (p q : Row) :
    ratioRow p q = List.zipWith retCell p q := by
  have h : (fun p q : Cell => Option.map₂ (fun a b : ℚ => b / a - 1) p q) = retCell := by
    funext p q
    rw [retCell_eq_map₂]
  rw [ratioRow, h]

/-- On a fully observed frame, the pct-change pass computes exactly the
consecutive-price returns against the previous row. -/
theorem pctRows_full : ∀ (P : PriceFrame) (prev : Row) (n : ℕ),
    prev.length = n →
    (∀ row ∈ P, row.length = n ∧ ∀ c ∈ row, c.isSome = true) →
    pctRows prev P = ratioFrame (prev :: P)
  | [], _, _, _, _ => rfl
  | row :: rest, prev, n, hp, hrows => by
      have hrow := hrows row (by simp)
      have hpad : List.zipWith padCell prev row = row :=
        zipWith_padCell_allsome prev row (by rw [hrow.1, hp]) hrow.2
      have hrest := pctRows_full rest row n hrow.1 (fun r hr => hrows r (by simp [hr]))
      simp only [pctRows, hpad, hrest, ratioFrame, ratioRow_eq_zipWith]

/-- A consecutive-return row of two fully observed nonempty rows holds
an observation. -/
theorem ratioRow_any (x y : Cell) (p q : Row) (hx : x.isSome = true) (hy : y.isSome = true) :
    (ratioRow (x :: p) (y :: q)).any (fun c => c.isSome) = true := by
  cases x with
  | none => simp at hx
  | some a =>
      cases y with
      | none => simp at hy
      | some b => simp [ratioRow, Option.map₂]

/-- Every consecutive-return row of a fully observed frame with at
least one asset holds an observation. -/
theorem ratioFrame_any : ∀ (P : PriceFrame) (n : ℕ), 0 < n →
    (∀ row ∈ P, row.length = n ∧ ∀ c ∈ row, c.isSome = true) →
    ∀ row ∈ ratioFrame P, row.any (fun c => c.isSome) = true
  | [], _, _, _ => by simp [ratioFrame]
  | [_], _, _, _ => by simp [ratioFrame]
  | r1 :: r2 :: rest, n, hn, hrows => by
      intro row hrow
      have h1 := hrows r1 (by simp)
      have h2 := hrows r2 (by simp)
      simp only [ratioFrame, List.mem_cons] at hrow
      rcases hrow with hrow | hrow
      · subst hrow
        cases r1 with
        | nil => rw [List.length_nil] at h1; omega
        | cons x p =>
            cases r2 with
            | nil => rw [List.length_nil] at h2; omega
            | cons y q =>
                exact ratioRow_any x y p q (h1.2 x (by simp)) (h2.2 y (by simp))
      · exact ratioFrame_any (r2 :: rest) n hn (fun r hr => hrows r (by simp [hr])) row
          (by simpa [ratioFrame] using hrow)

/-- A frame has one fewer consecutive-return row than price rows. -/
theorem ratioFrame_length : ∀ (P : PriceFrame), (ratioFrame P).length = P.length - 1
  | [] => rfl
  | [_] => rfl
  | _ :: r2 :: rest => by
      simp only [ratioFrame, List.length_cons, ratioFrame_length (r2 :: rest)]
      simp

/-! ### Claim theorems: Return Series Builder -/

/-- Claim C2 counterexample.  The claim says a timestamp at which some
asset's price is missing is dropped from all series, and that with
fewer than 2 fully observed timestamps the pipeline fails with
`InsufficientDataError`.  On the frame
`[[1, 1], [2, NaN], [2, 2]]` (3 timestamps, the middle one missing for
the second asset) the code keeps the partially missing timestamp and
produces 2 return rows, while the claimed behaviour would leave the 1
return row of the 2 complete timestamps; and on
`[[1, NaN], [NaN, 2], [2, 4]]`, which has only 1 fully observed
timestamp, the code raises nothing and returns 2 return rows. -/
theorem claim_C2_counterexample :
    compute_daily_returns 2 [[some 1, some 1], [some 2, none], [some 2, some 2]] =
      [[some 1, some 0], [some 0, some 1]] ∧
    spec_return_builder [[some 1, some 1], [some 2, none], [some 2, some 2]] =
      [[some 1, some 1]] ∧
    compute_daily_returns 2 [[some 1, none], [none, some 2], [some 2, some 4]] =
      [[some 0, none], [some 1, some 1]] ∧
    (spec_keep_complete [[some 1, none], [none, some 2], [some 2, some 4]]).length = 1 := by
  refine ⟨?_, ?_, ?_, ?_⟩
  · norm_num [compute_daily_returns, pct_change, pctRows, dropna_all, retCell, padCell,
      List.replicate, List.zipWith, List.filter, List.any]
  · norm_num [spec_return_builder, spec_keep_complete, ratioFrame, ratioRow,
      List.filter, List.all, List.zipWith, Option.map₂]
  · norm_num [compute_daily_returns, pct_change, pctRows, dropna_all, retCell, padCell,
      List.replicate, List.zipWith, List.filter, List.any]
  · norm_num [spec_keep_complete, List.filter, List.all]

/-- Claim C2, amended.  The builder drops a timestamp only when every
asset's price is missing there (`dropna(how="all")`): any row with at
least one observation survives the download-side dropna unchanged, and
on a frame of such rows the pipeline never fails and returns exactly
`T − 1` return rows (missing cells are forward-filled by
`pct_change`'s default fill); no `InsufficientDataError` exists in the
code. -/
theorem claim_C2_amended (n : ℕ) (P : PriceFrame)
    (hrows : ∀ row ∈ P, row.length = n ∧ row.any (fun c => c.isSome) = true) :
    dropna_all P = P ∧ (compute_daily_returns n P).length = P.length - 1 := by
  constructor
  · exact List.filter_eq_self.mpr (fun row hrow => by simpa using (hrows row hrow).2)
  · cases P with
    | nil => rfl
    | cons row rest =>
        have hrow := hrows row (by simp)
        have hpad : List.zipWith padCell (List.replicate n none) row = row :=
          zipWith_padCell_replicate_none row n (le_of_eq hrow.1)
        have hhead : ∀ x ∈ List.zipWith retCell (List.replicate n none) row, x = none :=
          zipWith_retCell_none (List.replicate n none) row
            (fun c hc => List.eq_of_mem_replicate hc)
        have hrest : dropna_all (pctRows row rest) = pctRows row rest :=
          dropna_all_pctRows rest row n hrow.1 hrow.2
            (fun r hr => hrows r (by simp [hr]))
        simp only [compute_daily_returns, pct_change, pctRows, hpad, dropna_all] at hrest ⊢
        rw [List.filter_cons_of_neg (by simpa using hhead), hrest, pctRows_length]
        simp

/-- Claim C2 amended, witness at the frame
`[[1, 1], [2, NaN], [2, 2]]` with 2 assets. -/
theorem claim_C2_amended_witness :
    dropna_all [[some 1, some 1], [some 2, none], [some 2, some 2]] =
      [[some 1, some 1], [some 2, none], [some 2, some 2]] ∧
    (compute_daily_returns 2 [[some 1, some 1], [some 2, none], [some 2, some 2]]).length =
      ([[some 1, some 1], [some 2, none], [some 2, some 2]] : PriceFrame).length - 1 :=
  claim_C2_amended 2 [[some 1, some 1], [some 2, none], [some 2, some 2]] (by decide)

/-- Claim C9: on a fully observed frame of `T ≥ 2` aligned rows of `n ≥ 1`
assets, `compute_daily_returns` produces exactly the `T − 1` rows of
consecutive-price returns `r_t = P_t / P_{t-1} - 1`. -/
theorem claim_C9_return_lengths (n : ℕ) (P : PriceFrame) (hn : 0 < n) (hT : 2 ≤ P.length)
    (hrows : ∀ row ∈ P, row.length = n ∧ ∀ c ∈ row, c.isSome = true) :
    compute_daily_returns n P = ratioFrame P ∧
    (compute_daily_returns n P).length = P.length - 1 := by
  have hmain : compute_daily_returns n P = ratioFrame P := by
    cases P with
    | nil => simp at hT
    | cons row rest =>
        have hrow := hrows row (by simp)
        have hallsome : row.any (fun c => c.isSome) = true := by
          cases row with
          | nil => rw [List.length_nil] at hrow; omega
          | cons x p => simp [hrow.2 x (by simp)]
        have hpad : List.zipWith padCell (List.replicate n none) row = row :=
          zipWith_padCell_replicate_none row n (le_of_eq hrow.1)
        have hhead : ∀ x ∈ List.zipWith retCell (List.replicate n none) row, x = none :=
          zipWith_retCell_none (List.replicate n none) row
            (fun c hc => List.eq_of_mem_replicate hc)
        have hfull : pctRows row rest = ratioFrame (row :: rest) :=
          pctRows_full rest row n hrow.1 (fun r hr => hrows r (by simp [hr]))
        have hkeep : dropna_all (ratioFrame (row :: rest)) = ratioFrame (row :: rest) :=
          List.filter_eq_self.mpr (fun r hr => by
            simpa using ratioFrame_any (row :: rest) n hn hrows r hr)
        simp only [compute_daily_returns, pct_change, pctRows, hpad, hfull, dropna_all] at hkeep ⊢
        rw [List.filter_cons_of_neg (by simpa using hhead), hkeep]
  exact ⟨hmain, by rw [hmain, ratioFrame_length]⟩

/-- Claim C9 witness at the single-asset frame `[[1], [2], [4]]`. -/
theorem claim_C9_witness :
    compute_daily_returns 1 [[some 1], [some 2], [some 4]] =
      ratioFrame [[some 1], [some 2], [some 4]] ∧
    (compute_daily_returns 1 [[some 1], [some 2], [some 4]]).length =
      ([[some 1], [some 2], [some 4]] : PriceFrame).length - 1 :=
  claim_C9_return_lengths 1 [[some 1], [some 2], [some 4]] (by decide) (by decide) (by decide)

/-! ### Claim theorems: Moment Estimator -/

/-- Claim C4: the annualized expected return of asset `i` is
`(1 + mean(r_i))^P - 1` for every periods-per-year constant `P`, with
the pipeline using the default `P = 252`; `mean(r_i)` is the arithmetic
mean of the column. -/
theorem claim_C4_annualized_return (N T : ℕ) (R : Fin T → Fin N → ℝ) :
    (∀ (m : ℝ) (P : ℕ), annualize_returns m P = (1 + m) ^ P - 1) ∧
    (∀ i, exp_returns_of N T R i = (1 + (∑ t, R t i) / (T : ℝ)) ^ 252 - 1) :=
  ⟨fun _ _ => rfl, fun _ => rfl⟩

/-- Claim C5: the pipeline's annualized covariance matrix is the
unbiased (`T − 1` denominator) sample covariance of the periodic
returns scaled by 252, and it is symmetric. -/
theorem claim_C5_annualized_covariance (N T : ℕ) (R : Fin T → Fin N → ℝ) :
    (∀ i j, cov_annual_of N T R i j = cov_annual_of N T R j i) ∧
    (∀ i j, cov_annual_of N T R i j =
      ((∑ t, (R t i - colMean T (fun s => R s i)) * (R t j - colMean T (fun s => R s j))) /
        ((T : ℝ) - 1)) * 252) := by
  constructor
  · intro i j
    have h : (∑ t, (R t i - colMean T (fun s => R s i)) * (R t j - colMean T (fun s => R s j)))
        = ∑ t, (R t j - colMean T (fun s => R s j)) * (R t i - colMean T (fun s => R s i)) :=
      Finset.sum_congr rfl (fun t _ => mul_comm _ _)
    simp only [cov_annual_of, annualize_covariance, sampleCov, h]
  · intro i j
    simp only [cov_annual_of, annualize_covariance, sampleCov]
    norm_num

/-! ### Claim theorems: Portfolio Evaluator -/

/-- Claim C3 counterexample.  The claim says a negative portfolio
variance makes `portfolio_stats` fail with `NumericalInstabilityError`.
At `n = 1`, `w = (1)`, `μ = (0)`, `Σ = [[-1]]`, `r_f = 0` the variance
is `-1 < 0`, yet the code returns `(0, NaN, NaN)` without raising
(there is no raise in `portfolio_stats`, and no
`NumericalInstabilityError` exists in the code), while the spec-side
evaluator reports the error. -/
theorem claim_C3_counterexample :
    portfolio_stats 1 (fun _ => 1) (fun _ => 0) (fun _ _ => -1) 0 =
      (0, NFloat.nan, NFloat.nan) ∧
    spec_portfolio_stats 1 (fun _ => 1) (fun _ => 0) (fun _ _ => -1) 0 =
      Except.error SpecError.numericalInstability := by
  have hvar : portVar 1 (fun _ => (1 : ℝ)) (fun _ _ => (-1 : ℝ)) = -1 := by
    simp [portVar]
  have hret : portRet 1 (fun _ => (1 : ℝ)) (fun _ => (0 : ℝ)) = 0 := by
    simp [portRet]
  have hsqrt : npSqrt (portVar 1 (fun _ => (1 : ℝ)) (fun _ _ => (-1 : ℝ))) = NFloat.nan := by
    rw [hvar]
    simp only [npSqrt]
    rw [if_pos (by norm_num)]
  have hcond : ¬(npSqrt (portVar 1 (fun _ => (1 : ℝ)) (fun _ _ => (-1 : ℝ))) = NFloat.val 0) := by
    rw [hsqrt]
    exact fun hc => NFloat.noConfusion hc
  constructor
  · simp only [portfolio_stats, hsqrt, hret]
    rw [if_neg hcond]
    rfl
  · simp only [spec_portfolio_stats]
    rw [if_pos (by rw [hvar]; norm_num)]

/-- Claim C3, amended.  On a negative portfolio variance the code does
not fail: `portfolio_stats` silently returns a NaN Sharpe ratio (the
square root of the negative variance is NaN, the `vol == 0` test is
false for NaN, and the division gives NaN), which is exactly where it
diverges from the spec-side evaluator's
`NumericalInstabilityError`. -/
theorem claim_C3_amended (n : ℕ) (w mu : Fin n → ℝ) (C : Fin n → Fin n → ℝ) (rf : ℝ)
    (h : portVar n w C < 0) :
    (portfolio_stats n w mu C rf).2.2 = NFloat.nan ∧
    spec_portfolio_stats n w mu C rf = Except.error SpecError.numericalInstability := by
  have hs : npSqrt (portVar n w C) = NFloat.nan := by
    simp only [npSqrt]
    rw [if_pos h]
  have hcond : ¬(npSqrt (portVar n w C) = NFloat.val 0) := by
    rw [hs]
    exact fun hc => NFloat.noConfusion hc
  constructor
  · simp only [portfolio_stats, hs]
    rw [if_neg hcond]
    rfl
  · simp only [spec_portfolio_stats]
    rw [if_pos h]

/-- Claim C3 amended, witness at `w = (1)`, `μ = (3)`, `Σ = [[-9]]`,
`r_f = 2`. -/
theorem claim_C3_amended_witness :
    (portfolio_stats 1 (fun _ => 1) (fun _ => 3) (fun _ _ => -9) 2).2.2 = NFloat.nan ∧
    spec_portfolio_stats 1 (fun _ => 1) (fun _ => 3) (fun _ _ => -9) 2 =
      Except.error SpecError.numericalInstability :=
  claim_C3_amended 1 (fun _ => 1) (fun _ => 3) (fun _ _ => -9) 2
    (by norm_num [portVar, Fin.sum_univ_one])

/-- Claim C10: `portfolio_stats` is total, and on a negative portfolio
variance it returns the triple `(w·μ, NaN, NaN)` — the volatility is
NaN, the `vol == 0` test is false, and the Sharpe ratio is NaN rather
than an error or 0. -/
theorem claim_C10_nan_propagation (n : ℕ) (w mu : Fin n → ℝ) (C : Fin n → Fin n → ℝ)
    (rf : ℝ) (h : portVar n w C < 0) :
    portfolio_stats n w mu C rf = (portRet n w mu, NFloat.nan, NFloat.nan) := by
  have hs : npSqrt (portVar n w C) = NFloat.nan := by
    simp only [npSqrt]
    rw [if_pos h]
  have hcond : ¬(npSqrt (portVar n w C) = NFloat.val 0) := by
    rw [hs]
    exact fun hc => NFloat.noConfusion hc
  simp only [portfolio_stats, hs]
  rw [if_neg hcond]
  rfl

/-- Claim C10 witness at `n = 2`, `w = (1,1)`, `μ = (5,7)`,
`Σ = [[-1,-1],[-1,-1]]`, `r_f = 0`. -/
theorem claim_C10_nan_propagation_witness :
    portfolio_stats 2 (fun _ => 1) (fun i => if i = 0 then 5 else 7) (fun _ _ => -1) 0 =
      (portRet 2 (fun _ => 1) (fun i => if i = 0 then 5 else 7), NFloat.nan, NFloat.nan) :=
  claim_C10_nan_propagation 2 (fun _ => 1) (fun i => if i = 0 then 5 else 7) (fun _ _ => -1) 0
    (by norm_num [portVar, Fin.sum_univ_two])

/-- Claim C6 counterexample.  The claim maps every portfolio whose
volatility is not strictly positive to Sharpe 0; but at `n = 1`,
`w = (1)`, `μ = (0)`, `Σ = [[-4]]`, `r_f = 0` the volatility is NaN
(not strictly positive) and the code's Sharpe ratio is NaN, not 0. -/
theorem claim_C6_counterexample :
    (portfolio_stats 1 (fun _ => 1) (fun _ => 0) (fun _ _ => -4) 0).2.2 = NFloat.nan ∧
    NFloat.nan ≠ NFloat.val 0 := by
  constructor
  · have hvar : portVar 1 (fun _ => (1 : ℝ)) (fun _ _ => (-4 : ℝ)) = -4 := by
      simp [portVar]
    have hs : npSqrt (portVar 1 (fun _ => (1 : ℝ)) (fun _ _ => (-4 : ℝ))) = NFloat.nan := by
      rw [hvar]
      simp only [npSqrt]
      rw [if_pos (by norm_num)]
    have hcond : ¬(npSqrt (portVar 1 (fun _ => (1 : ℝ)) (fun _ _ => (-4 : ℝ))) = NFloat.val 0) := by
      rw [hs]
      exact fun hc => NFloat.noConfusion hc
    simp only [portfolio_stats, hs]
    rw [if_neg hcond]
    rfl
  · exact fun hc => NFloat.noConfusion hc

/-- Claim C6, amended.  Whenever the portfolio variance is nonnegative
(so the volatility `sqrt(var)` is an actual number), the Sharpe ratio
is `(w·μ − r_f) / sqrt(wᵗΣw)` when the volatility is strictly positive
and 0 otherwise; the amendment excludes the negative-variance case,
where the code produces NaN instead of 0. -/
theorem claim_C6_amended (n : ℕ) (w mu : Fin n → ℝ) (C : Fin n → Fin n → ℝ) (rf : ℝ)
    (h : 0 ≤ portVar n w C) :
    (portfolio_stats n w mu C rf).2.2 =
      if 0 < Real.sqrt (portVar n w C) then
        NFloat.val ((portRet n w mu - rf) / Real.sqrt (portVar n w C))
      else NFloat.val 0 := by
  have hs : npSqrt (portVar n w C) = NFloat.val (Real.sqrt (portVar n w C)) := by
    simp only [npSqrt]
    rw [if_neg (not_lt.mpr h)]
  rcases lt_or_eq_of_le h with hv | hv
  · have hpos : 0 < Real.sqrt (portVar n w C) := Real.sqrt_pos.mpr hv
    have hcond : ¬(npSqrt (portVar n w C) = NFloat.val 0) := by
      rw [hs]
      exact fun hc => hpos.ne' (NFloat.val.inj hc)
    simp only [portfolio_stats, hs]
    rw [if_neg hcond, if_pos hpos]
    rfl
  · have h0 : Real.sqrt (portVar n w C) = 0 := by rw [← hv, Real.sqrt_zero]
    have hcond : npSqrt (portVar n w C) = NFloat.val 0 := by rw [hs, h0]
    have hns : ¬(0 < Real.sqrt (portVar n w C)) := by rw [h0]; exact lt_irrefl 0
    simp only [portfolio_stats]
    rw [if_pos hcond, if_neg hns]

/-- Claim C6 amended, witness at `w = (1)`, `μ = (3)`, `Σ = [[4]]`,
`r_f = 1`. -/
theorem claim_C6_amended_witness :
    (portfolio_stats 1 (fun _ => 1) (fun _ => 3) (fun _ _ => 4) 1).2.2 =
      if 0 < Real.sqrt (portVar 1 (fun _ => 1) (fun _ _ => 4)) then
        NFloat.val ((portRet 1 (fun _ => 1) (fun _ => 3) - 1) /
          Real.sqrt (portVar 1 (fun _ => 1) (fun _ _ => 4)))
      else NFloat.val 0 :=
  claim_C6_amended 1 (fun _ => 1) (fun _ => 3) (fun _ _ => 4) 1
    (by norm_num [portVar, Fin.sum_univ_one])

/-! ### Claim theorems: Allocator -/

/-- Claim C7: the problem `optimize_sharpe` hands to the solver has the
equal-weight initial point `(1/N, ..., 1/N)`, the equality constraint
`sum(w) − 1`, bounds `[0, 1]` on every weight, and as objective the
negated Sharpe ratio of the Portfolio Evaluator. -/
theorem claim_C7_solver_setup (n : ℕ) (mu : Fin n → ℝ) (C : Fin n → Fin n → ℝ) (rf : ℝ) :
    (sharpeProblem n mu C rf).x0 = (fun _ => 1 / (n : ℝ)) ∧
    (∀ w, (sharpeProblem n mu C rf).eqConstraintFun w = (∑ i, w i) - 1) ∧
    (∀ i, (sharpeProblem n mu C rf).bounds i = (0, 1)) ∧
    (∀ w, (sharpeProblem n mu C rf).objective w = npNeg (portfolio_stats n w mu C rf).2.2) :=
  ⟨rfl, fun _ => rfl, fun _ => rfl, fun _ => rfl⟩

/-- Claim C8: `optimize_sharpe` fails exactly when the solver reports
non-convergence; on failure the error carries the solver's diagnostic
message (the source's `RuntimeError` text
`"Optimization failed: {result.message}"`), and on success the
solver's point is returned unchanged. -/
theorem claim_C8_failure_policy (n : ℕ) (minimize : SolverProblem n → SolverResult n)
    (mu : Fin n → ℝ) (C : Fin n → Fin n → ℝ) (rf : ℝ) :
    optimize_sharpe n minimize mu C rf =
      (if (minimize (sharpeProblem n mu C rf)).success then
        Except.ok ((minimize (sharpeProblem n mu C rf)).x)
      else
        Except.error ("Optimization failed: " ++ (minimize (sharpeProblem n mu C rf)).message)) ∧
    ((∃ e, optimize_sharpe n minimize mu C rf = Except.error e) ↔
      (minimize (sharpeProblem n mu C rf)).success = false) := by
  constructor
  · rfl
  · cases hs : (minimize (sharpeProblem n mu C rf)).success
    · simp [optimize_sharpe, hs]
    · simp [optimize_sharpe, hs]

/-- Claim C1: any weight vector that `optimize_sharpe` returns is the
solver's point, which the code constrained by bounds `[0, 1]` and the
equality constraint `sum(w) − 1 = 0`; under the solver's success
contract (bounds respected, equality constraint within `1e-6`) the
returned weights sum to 1 within `1e-6` and every weight is at least
`-1e-9` (indeed at least 0). -/
theorem claim_C1_simplex (n : ℕ) (minimize : SolverProblem n → SolverResult n)
    (mu : Fin n → ℝ) (C : Fin n → Fin n → ℝ) (rf : ℝ) (w : Fin n → ℝ)
    (hret : optimize_sharpe n minimize mu C rf = Except.ok w)
    (hbounds : ∀ i,
      ((sharpeProblem n mu C rf).bounds i).1 ≤ (minimize (sharpeProblem n mu C rf)).x i ∧
      (minimize (sharpeProblem n mu C rf)).x i ≤ ((sharpeProblem n mu C rf).bounds i).2)
    (hcon : |(sharpeProblem n mu C rf).eqConstraintFun ((minimize (sharpeProblem n mu C rf)).x)|
      ≤ 1 / 1000000) :
    |(∑ i, w i) - 1| ≤ 1 / 1000000 ∧ ∀ i, -(1 / 1000000000 : ℝ) ≤ w i := by
  have hw : w = (minimize (sharpeProblem n mu C rf)).x := by
    by_cases hs : (minimize (sharpeProblem n mu C rf)).success = true
    · rw [optimize_sharpe, if_pos hs] at hret
      exact (Except.ok.inj hret).symm
    · rw [optimize_sharpe, if_neg hs] at hret
      exact absurd hret (by simp)
  subst hw
  constructor
  · exact hcon
  · intro i
    have h0 : (0 : ℝ) ≤ (minimize (sharpeProblem n mu C rf)).x i := (hbounds i).1
    linarith

/-- Claim C1 witness: a one-asset instance with a solver that succeeds
at the feasible point `(1)`. -/
theorem claim_C1_simplex_witness :
    |(∑ _i : Fin 1, (1 : ℝ)) - 1| ≤ 1 / 1000000 ∧
    ∀ _j : Fin 1, -(1 / 1000000000 : ℝ) ≤ (1 : ℝ) :=
  claim_C1_simplex 1 (fun _ => ⟨true, fun _ => 1, ""⟩) (fun _ => 0) (fun _ _ => 0) 0
    (fun _ => 1) rfl
    (fun _ => by norm_num [sharpeProblem])
    (by norm_num [sharpeProblem, Fin.sum_univ_one])

end SharpeOptimizer
